import Mathlib

/-!
Verification development for the `pull_historic_bamb_data` repository.

Two components are embedded:

* the credential vault of `src/configs/crypter.py` (`encrypt`, `decrypt`,
  `encrypt_to_config`, `decrypt_from_config`), and
* the employment-event reconstructor of `src/main.py`
  (`HistoricBambooUpdater.get_original_hire_date`, `HistoricBambooUpdater.get_date`).

Modelling conventions:

* The JSON config store is a flat map from string keys to string values,
  embedded as a function `String → Option String` (`dict.get` is application,
  `dict.update` is `storeSet`).
* The on-disk file is `FileContent`: absent, present-but-malformed JSON, or a
  valid store.
* The Fernet primitive from the `cryptography` package is an external
  collaborator; it is embedded as an explicit record of functions
  (`EncPrimitive`) with key generation indexed by a randomness seed.  Fernet
  keys and tokens are url-safe base64 ASCII, so the `.decode('UTF-8')` /
  `.encode()` conversions in the source are identities in this model and keys
  and tokens are carried as `String`.
* Python exceptions are explicit: `PyErr` for the reconstructor and the
  undefined-name error in `encrypt_to_config`, and dedicated constructors of
  `VaultResult` for the lookup failures of `decrypt_from_config`.
-/

/-- A flat JSON object of string keys and string values
(`config` in `src/configs/crypter.py`). -/
def Store : Type := String → Option String

/-- The empty JSON object `{}`. -/
def emptyStore : Store := fun _ => none

/-- Python `config[k] = v` / one key of `config.update(...)`. -/
def storeSet (st : Store) (k v : String) : Store :=
  fun q => if q = k then some v else st q

/-- State of the config file on disk: missing, present but not valid JSON,
or a valid JSON store. -/
inductive FileContent : Type
  | absent : FileContent
  | malformed : FileContent
  | valid (store : Store) : FileContent

/-- `crypter.py` lines 91-99: load the existing config if the file exists and
parses, otherwise start fresh (`config = {}`).  This models the load step of
`encrypt_to_config`, where `json.JSONDecodeError` is caught. -/
def loadOrEmpty : FileContent → Store
  | .valid st => st
  | _ => emptyStore

/-- Python runtime errors raised by the embedded code. -/
inductive PyErr : Type
  | indexError : PyErr
  | typeError : PyErr
  | nameError : PyErr
deriving DecidableEq

/-- The authenticated symmetric-encryption collaborator (Fernet in the
source).  `genKey` is `Fernet.generate_key()` with the randomness made
explicit as a seed; `encryptWith` is `Fernet(key).encrypt`; `decryptWith` is
`Fernet(key).decrypt`, returning `none` where the library raises
`InvalidToken`. -/
structure EncPrimitive : Type where
  genKey : Nat → String
  encryptWith : String → String → String
  decryptWith : String → String → Option String

/-- `crypter.py` lines 43-51, `encrypt(secret_message)`: build a fresh key and
return `(key, Fernet(key).encrypt(secret))`. -/
def encrypt (prim : EncPrimitive) (seed : Nat) (secret_message : String) :
    String × String :=
  let key := prim.genKey seed
  (key, prim.encryptWith key secret_message)

/-- `crypter.py` lines 53-69, `decrypt(key, stoken)`: decrypt a token with its
key; `none` models the loud failure of the primitive on tamper or wrong
key. -/
def decrypt (prim : EncPrimitive) (key : String) (stoken : String) :
    Option String :=
  prim.decryptWith key stoken

/-- Names bound at module level in `crypter.py` that matter for the logging
lines: the module binds `logger` (line 41) and never binds `log`. -/
def crypterModuleNames : List String := ["logger"]

/-- Evaluation of a bare name in the module namespace: `NameError` when the
name is unbound. -/
def evalName (n : String) : Except PyErr Unit :=
  if crypterModuleNames.contains n then .ok () else .error .nameError

/-- `crypter.py` lines 71-108, `encrypt_to_config(secret_string, name,
file_path)`.  Returns the file content after the call together with the
call's outcome.  Steps, in source order: build the field names `{name}_key`
and `{name}_stoken`; encrypt; load the existing config (missing file or
malformed JSON gives `{}`); `config.update(data)`; `json.dump` writes the
merged store; then the success-log line evaluates the name `log`, and on the
resulting exception the handler's error-log line evaluates `log` again. -/
def encrypt_to_config (prim : EncPrimitive) (seed : Nat)
    (secret_string name : String) (file : FileContent) :
    FileContent × Except PyErr Unit :=
  let key_name := name ++ "_key"
  let stoken_name := name ++ "_stoken"
  let ks := encrypt prim seed secret_string
  let config := loadOrEmpty file
  let config := storeSet (storeSet config key_name ks.1) stoken_name ks.2
  let outcome : Except PyErr Unit :=
    match evalName "log" with
    | .ok _ => .ok ()
    | .error _ =>
      match evalName "log" with
      | .ok _ => .ok ()
      | .error e => .error e
  (.valid config, outcome)

/-- Outcome of `decrypt_from_config`: the distinct failure conditions of the
source (`FileNotFoundError`, uncaught `json.JSONDecodeError`, `KeyError`,
`InvalidToken` from the primitive) or the decrypted secret. -/
inductive VaultResult : Type
  | storeNotFound : VaultResult
  | jsonError : VaultResult
  | missingSecret : VaultResult
  | decryptError : VaultResult
  | ok (secret : String) : VaultResult
deriving DecidableEq

/-- `crypter.py` lines 110-134, `decrypt_from_config(name, file_path)`: raise
`FileNotFoundError` when the file is absent; `json.load` (uncaught decode
error on malformed JSON); read `{name}_key` and `{name}_stoken` with
`config.get`; raise `KeyError` when either is `None`; otherwise return
`decrypt(key, stoken)`. -/
def decrypt_from_config (prim : EncPrimitive) (name : String)
    (file : FileContent) : VaultResult :=
  let key_name := name ++ "_key"
  let stoken_name := name ++ "_stoken"
  match file with
  | .absent => .storeNotFound
  | .malformed => .jsonError
  | .valid config =>
    match config key_name, config stoken_name with
    | some key, some stoken =>
      match decrypt prim key stoken with
      | some secret => .ok secret
      | none => .decryptError
    | _, _ => .missingSecret

/-- A concrete instance of the encryption collaborator, used to instantiate
the general theorems on closed inputs. -/
def primId : EncPrimitive where
  genKey := fun seed => "K" ++ toString seed
  encryptWith := fun _ s => s
  decryptWith := fun _ t => some t

/-!
## Employment-event reconstructor (`src/main.py`)
-/

/-- One row of the employment-status table: python dict
`{'date': ..., 'employmentStatus': ...}`. -/
structure Event : Type where
  date : String
  employmentStatus : String
deriving DecidableEq

/-- One employee's record: python dict `{'id': ..., 'data': [...]}` as built
by `pullnclean_employement_status_table`. -/
structure Record : Type where
  id : String
  data : List Event
deriving DecidableEq

/-- Python string `<` (lexicographic by code point) on the underlying
character lists. -/
def charListLt : List Char → List Char → Bool
  | [], [] => false
  | [], _ :: _ => true
  | _ :: _, [] => false
  | a :: as, b :: bs =>
    if a < b then true else if b < a then false else charListLt as bs

/-- Python `a < b` on strings. -/
def pyStrLt (a b : String) : Bool := charListLt a.data b.data

/-- Python `needle in hay` on character lists: some suffix of `hay` starts
with `needle`. -/
def listIsInfix (needle : List Char) : List Char → Bool
  | [] => needle.isPrefixOf []
  | c :: rest => needle.isPrefixOf (c :: rest) || listIsInfix needle rest

/-- Python `needle in hay` on strings. -/
def containsSub (needle hay : String) : Bool := listIsInfix needle.data hay.data

/-- `main.py` line 171: the status classifies as a termination when its text
contains the fragment `"erminated"`. -/
def isTermEvent (e : Event) : Bool := containsSub "erminated" e.employmentStatus

/-- `main.py` lines 130-155, `get_original_hire_date(input)`, instrumented
with the list of employee ids passed to the directory-lookup collaborator
`api_original_hire_date` (modelled as the function argument `api`, since the
HTTP call itself is an external collaborator).  Step by step:
`input_data[0]` raises `IndexError` on an empty list (line 141, unguarded);
the sentinel date `"0000-00-00"` triggers the collaborator fetch; the
`try` block reads `input_data[1]` and catches only `IndexError`; the second
event overrides when its status is not exactly `"Terminated"` and its date
compares `<` the hire date — comparing a string against `None` (a collaborator
miss) raises `TypeError`, and python `and` short-circuits so the comparison
only runs when the status test passed. -/
def get_original_hire_date_run (api : String → Option String)
    (input : Record) : Except PyErr (Option String) × List String :=
  match input.data with
  | [] => (.error .indexError, [])
  | first :: rest =>
    let fetched : Option String × List String :=
      if first.date = "0000-00-00" then (api input.id, [input.id])
      else (some first.date, [])
    let original_hiredate := fetched.1
    match rest with
    | [] => (.ok original_hiredate, fetched.2)
    | second :: _ =>
      if second.employmentStatus ≠ "Terminated" then
        match original_hiredate with
        | none => (.error .typeError, fetched.2)
        | some o =>
          if pyStrLt second.date o then (.ok (some second.date), fetched.2)
          else (.ok original_hiredate, fetched.2)
      else (.ok original_hiredate, fetched.2)

/-- `get_original_hire_date` proper: the returned value, dropping the
instrumented call log. -/
def get_original_hire_date (api : String → Option String)
    (input : Record) : Except PyErr (Option String) :=
  (get_original_hire_date_run api input).1

/-- `main.py` lines 164-180: the scan loop of `get_date`, with the mutable
`term_count` threaded as an argument.  On a termination event the counter is
incremented first and the date returned when searching for `"Terminated"`
with the matching occurrence; on a non-termination event the date is
returned when searching for `"Hire"` with the counter already at the
occurrence; otherwise the loop continues and falls through to `""`. -/
def getDateScan (param_index : Nat) (search_value : String) :
    List Event → Nat → String
  | [], _ => ""
  | event :: rest, term_count =>
    if isTermEvent event then
      if search_value = "Terminated" ∧ term_count + 1 = param_index then
        event.date
      else getDateScan param_index search_value rest (term_count + 1)
    else
      if search_value = "Hire" ∧ term_count = param_index then event.date
      else getDateScan param_index search_value rest term_count

/-- `main.py` lines 156-180, `get_date(input_data, param_index,
search_value)`: dispatch `"Original Hire"` to `get_original_hire_date`,
otherwise run the scan with the counter at 0. -/
def get_date (api : String → Option String) (input_data : Record)
    (param_index : Nat) (search_value : String) :
    Except PyErr (Option String) :=
  if search_value = "Original Hire" then get_original_hire_date api input_data
  else .ok (some (getDateScan param_index search_value input_data.data 0))

/-!
## Specification-side descriptions of the scan results

These restate the claims' wording (occurrence counting by position) rather
than the code's threaded counter; the claim theorems connect the two.
-/

/-- The date of the `n`-th event (1-based, in sequence order) whose status
contains `"erminated"`, or `""` when there is no such event. -/
def nthTermDate (events : List Event) (n : Nat) : String :=
  match (events.filter isTermEvent)[n - 1]? with
  | some e => e.date
  | none => ""

/-- An indexed event qualifies for the `"Hire"` query at occurrence `n` when
it is not a termination and exactly `n` termination events precede it in the
sequence. -/
def hirePred (events : List Event) (n : Nat) (p : Nat × Event) : Bool :=
  !isTermEvent p.2 && ((events.take p.1).countP isTermEvent == n)

/-- The date of the first non-termination event scanned while the
termination counter equals `n`, or `""` when there is no such event. -/
def nthHireDate (events : List Event) (n : Nat) : String :=
  match events.enum.find? (hirePred events n) with
  | some p => p.2.date
  | none => ""

/-- The hire date determined from the first event: the event's own date, or
the directory-lookup result when the date is the sentinel. -/
def hireDateOf (api : String → Option String) (id : String)
    (first : Event) : Option String :=
  if first.date = "0000-00-00" then api id else some first.date

/-- No qualifying second-event override: either there is no second event, or
its status is exactly `"Terminated"`, or its date is not strictly earlier
than the fetched hire date. -/
def noSecondOverride (api : String → Option String) (id : String)
    (rest : List Event) : Prop :=
  match rest with
  | [] => True
  | second :: _ =>
    second.employmentStatus = "Terminated" ∨
      ∃ v, api id = some v ∧ pyStrLt second.date v = false

/-!
## Helper lemmas
-/

lemma storeSet_self (st : Store) (k v : String) : storeSet st k v k = some v := by
  simp [storeSet]

lemma storeSet_other (st : Store) (k v q : String) (h : q ≠ k) :
    storeSet st k v q = st q := by
  simp [storeSet, h]

lemma key_name_ne_stoken_name (n : String) : n ++ "_key" ≠ n ++ "_stoken" := by
  intro h
  have hlen := congrArg String.length h
  rw [String.length_append, String.length_append] at hlen
  have h1 : "_key".length = 4 := rfl
  have h2 : "_stoken".length = 7 := rfl
  omega

lemma find?_congrOn {α : Type} (p q : α → Bool) :
    ∀ l : List α, (∀ a ∈ l, p a = q a) → l.find? p = l.find? q := by
  intro l
  induction l with
  | nil => intro _; rfl
  | cons a l ih =>
    intro h
    have ha := h a (List.mem_cons_self a l)
    cases hq : q a with
    | true =>
      rw [List.find?_cons_of_pos l (ha.trans hq),
        List.find?_cons_of_pos l hq]
    | false =>
      rw [List.find?_cons_of_neg l (by simp [ha, hq]),
        List.find?_cons_of_neg l (by simp [hq])]
      exact ih fun a ha => h a (List.mem_cons_of_mem _ ha)

lemma mem_enumFrom_le {α : Type} :
    ∀ (l : List α) (i : Nat) (p : Nat × α), p ∈ List.enumFrom i l → i ≤ p.1 := by
  intro l
  induction l with
  | nil => intro i p h; simp [List.enumFrom] at h
  | cons a l ih =>
    intro i p h
    rw [show List.enumFrom i (a :: l) = (i, a) :: List.enumFrom (i + 1) l from rfl,
      List.mem_cons] at h
    rcases h with h | h
    · subst h; exact Nat.le_refl i
    · exact Nat.le_of_succ_le (ih (i + 1) p h)

lemma decrypt_from_config_valid (prim : EncPrimitive) (name : String) (cfg : Store) :
    decrypt_from_config prim name (.valid cfg) =
      match cfg (name ++ "_key"), cfg (name ++ "_stoken") with
      | some key, some stoken =>
        (match decrypt prim key stoken with
         | some secret => VaultResult.ok secret
         | none => VaultResult.decryptError)
      | _, _ => VaultResult.missingSecret := rfl

/-!
## Claim theorems: credential vault
-/

/-- C1: for every string `s` (empty and multi-byte included) and every name
`n`, decrypting name `n` from the store written by `encrypt_to_config s n`
returns `s`, given the collaborator's round-trip contract on the generated
key. -/
theorem encrypt_then_decrypt_roundtrip (prim : EncPrimitive) (seed : Nat)
    (s n : String) (file : FileContent)
    (h : prim.decryptWith (prim.genKey seed)
      (prim.encryptWith (prim.genKey seed) s) = some s) :
    decrypt_from_config prim n (encrypt_to_config prim seed s n file).1 =
      VaultResult.ok s := by
  have h1 : (encrypt_to_config prim seed s n file).1 =
      FileContent.valid (storeSet
        (storeSet (loadOrEmpty file) (n ++ "_key") (prim.genKey seed))
        (n ++ "_stoken") (prim.encryptWith (prim.genKey seed) s)) := rfl
  rw [h1, decrypt_from_config_valid,
    storeSet_other _ _ _ _ (key_name_ne_stoken_name n), storeSet_self,
    storeSet_self]
  simp [decrypt, h]

/-- Witness for C1 on a concrete multi-byte secret. -/
theorem encrypt_then_decrypt_roundtrip_witness :
    primId.decryptWith (primId.genKey 0)
      (primId.encryptWith (primId.genKey 0) "héllo✓") = some "héllo✓" ∧
    decrypt_from_config primId "nm"
      (encrypt_to_config primId 0 "héllo✓" "nm" .absent).1 =
      VaultResult.ok "héllo✓" :=
  ⟨rfl, encrypt_then_decrypt_roundtrip primId 0 "héllo✓" "nm" .absent rfl⟩

/-- C9: every call of `encrypt_to_config` that reaches the write step first
produces the merged store on disk and then fails with `NameError` (both
logging lines evaluate the unbound name `log`), so the call never returns
normally while the store mutation stays in place. -/
theorem encrypt_to_config_writes_then_raises (prim : EncPrimitive)
    (seed : Nat) (s n : String) (file : FileContent) :
    (encrypt_to_config prim seed s n file).2 = Except.error PyErr.nameError ∧
    (encrypt_to_config prim seed s n file).1 =
      FileContent.valid (storeSet
        (storeSet (loadOrEmpty file) (n ++ "_key") (prim.genKey seed))
        (n ++ "_stoken") (prim.encryptWith (prim.genKey seed) s)) :=
  ⟨rfl, rfl⟩

/-- C8: `encrypt_to_config` loads a missing or malformed store as empty, the
written-back store keeps every prior entry at keys other than the two entries
for `n`, and the two entries for `n` are overwritten with the new key and
token. -/
theorem encrypt_to_config_frame (prim : EncPrimitive) (seed : Nat)
    (s n : String) (file : FileContent) (k : String)
    (h1 : k ≠ n ++ "_key") (h2 : k ≠ n ++ "_stoken") :
    loadOrEmpty FileContent.absent = emptyStore ∧
    loadOrEmpty FileContent.malformed = emptyStore ∧
    loadOrEmpty (encrypt_to_config prim seed s n file).1 k =
      loadOrEmpty file k ∧
    loadOrEmpty (encrypt_to_config prim seed s n file).1 (n ++ "_key") =
      some (prim.genKey seed) ∧
    loadOrEmpty (encrypt_to_config prim seed s n file).1 (n ++ "_stoken") =
      some (prim.encryptWith (prim.genKey seed) s) := by
  refine ⟨rfl, rfl, ?_, ?_, ?_⟩
  · show storeSet (storeSet (loadOrEmpty file) (n ++ "_key") _)
      (n ++ "_stoken") _ k = loadOrEmpty file k
    rw [storeSet_other _ _ _ _ h2, storeSet_other _ _ _ _ h1]
  · show storeSet (storeSet (loadOrEmpty file) (n ++ "_key") _)
      (n ++ "_stoken") _ (n ++ "_key") = some (prim.genKey seed)
    rw [storeSet_other _ _ _ _ (key_name_ne_stoken_name n), storeSet_self]
    rfl
  · exact storeSet_self _ _ _

/-- Witness for C8 at a concrete prior store with an unrelated entry. -/
theorem encrypt_to_config_frame_witness :
    ("other" : String) ≠ "my_api" ++ "_key" ∧
    ("other" : String) ≠ "my_api" ++ "_stoken" ∧
    (loadOrEmpty FileContent.absent = emptyStore ∧
     loadOrEmpty FileContent.malformed = emptyStore ∧
     loadOrEmpty (encrypt_to_config primId 0 "sec" "my_api"
        (.valid (storeSet emptyStore "other" "keep"))).1 "other" =
       loadOrEmpty (.valid (storeSet emptyStore "other" "keep")) "other" ∧
     loadOrEmpty (encrypt_to_config primId 0 "sec" "my_api"
        (.valid (storeSet emptyStore "other" "keep"))).1 ("my_api" ++ "_key") =
       some (primId.genKey 0) ∧
     loadOrEmpty (encrypt_to_config primId 0 "sec" "my_api"
        (.valid (storeSet emptyStore "other" "keep"))).1 ("my_api" ++ "_stoken") =
       some (primId.encryptWith (primId.genKey 0) "sec")) :=
  ⟨by decide, by decide,
    encrypt_to_config_frame primId 0 "sec" "my_api"
      (.valid (storeSet emptyStore "other" "keep")) "other"
      (by decide) (by decide)⟩

/-- C6 counterexample: after storing the secret `"sec"` under the name
`"my_api"`, the store has no entry `"my_api_token"`; the ciphertext lives
under `"my_api_stoken"`, and a store offering only `"my_api_key"` and
`"my_api_token"` makes `decrypt_from_config` fail with the missing-key
error. -/
theorem stored_field_is_stoken_not_token :
    loadOrEmpty (encrypt_to_config primId 0 "sec" "my_api"
      FileContent.absent).1 "my_api_token" = none ∧
    loadOrEmpty (encrypt_to_config primId 0 "sec" "my_api"
      FileContent.absent).1 "my_api_stoken" = some "sec" ∧
    decrypt_from_config primId "my_api"
      (.valid (storeSet (storeSet emptyStore "my_api_key" "K0")
        "my_api_token" "sec")) = VaultResult.missingSecret := by
  refine ⟨by decide, by decide, by decide⟩

/-- C6 amended: `encrypt_to_config s n` stores the key and ciphertext under
exactly the flat keys `{n}_key` and `{n}_stoken`, and `decrypt_from_config n`
reads exactly those two keys (its result depends on no other entry). -/
theorem store_field_names (prim : EncPrimitive) (seed : Nat)
    (s n : String) (file : FileContent) (k : String)
    (h1 : k ≠ n ++ "_key") (h2 : k ≠ n ++ "_stoken") :
    loadOrEmpty (encrypt_to_config prim seed s n file).1 k =
      loadOrEmpty file k ∧
    loadOrEmpty (encrypt_to_config prim seed s n file).1 (n ++ "_key") =
      some (prim.genKey seed) ∧
    loadOrEmpty (encrypt_to_config prim seed s n file).1 (n ++ "_stoken") =
      some (prim.encryptWith (prim.genKey seed) s) ∧
    (∀ cfg cfg' : Store, cfg (n ++ "_key") = cfg' (n ++ "_key") →
      cfg (n ++ "_stoken") = cfg' (n ++ "_stoken") →
      decrypt_from_config prim n (.valid cfg) =
        decrypt_from_config prim n (.valid cfg')) := by
  refine ⟨?_, ?_, ?_, ?_⟩
  · show storeSet (storeSet (loadOrEmpty file) (n ++ "_key") _)
      (n ++ "_stoken") _ k = loadOrEmpty file k
    rw [storeSet_other _ _ _ _ h2, storeSet_other _ _ _ _ h1]
  · show storeSet (storeSet (loadOrEmpty file) (n ++ "_key") _)
      (n ++ "_stoken") _ (n ++ "_key") = some (prim.genKey seed)
    rw [storeSet_other _ _ _ _ (key_name_ne_stoken_name n), storeSet_self]
    rfl
  · exact storeSet_self _ _ _
  · intro cfg cfg' e1 e2
    rw [decrypt_from_config_valid, decrypt_from_config_valid, e1, e2]

/-- Witness for the amended C6 at concrete inputs. -/
theorem store_field_names_witness :
    ("zzz" : String) ≠ "nm" ++ "_key" ∧
    ("zzz" : String) ≠ "nm" ++ "_stoken" ∧
    (loadOrEmpty (encrypt_to_config primId 3 "tok" "nm" .absent).1 "zzz" =
       loadOrEmpty FileContent.absent "zzz" ∧
     loadOrEmpty (encrypt_to_config primId 3 "tok" "nm" .absent).1
        ("nm" ++ "_key") = some (primId.genKey 3) ∧
     loadOrEmpty (encrypt_to_config primId 3 "tok" "nm" .absent).1
        ("nm" ++ "_stoken") = some (primId.encryptWith (primId.genKey 3) "tok") ∧
     (∀ cfg cfg' : Store, cfg ("nm" ++ "_key") = cfg' ("nm" ++ "_key") →
       cfg ("nm" ++ "_stoken") = cfg' ("nm" ++ "_stoken") →
       decrypt_from_config primId "nm" (.valid cfg) =
         decrypt_from_config primId "nm" (.valid cfg'))) :=
  ⟨by decide, by decide,
    store_field_names primId 3 "tok" "nm" .absent "zzz" (by decide) (by decide)⟩

/-- C5: for a store file that is absent or a valid JSON store (the data
model's store shape), `decrypt_from_config` fails with the file-not-found
error exactly when the file is absent, fails with the missing-key error
exactly when the file holds a store lacking the key entry or the token entry
for `name`, and with both entries present returns the outcome of
`decrypt(key, stoken)`. -/
theorem decrypt_from_config_error_taxonomy (prim : EncPrimitive)
    (name : String) (file : FileContent) (h : file ≠ FileContent.malformed) :
    (decrypt_from_config prim name file = VaultResult.storeNotFound ↔
      file = FileContent.absent) ∧
    (decrypt_from_config prim name file = VaultResult.missingSecret ↔
      ∃ cfg, file = FileContent.valid cfg ∧
        (cfg (name ++ "_key") = none ∨ cfg (name ++ "_stoken") = none)) ∧
    (∀ cfg key stoken, file = FileContent.valid cfg →
      cfg (name ++ "_key") = some key →
      cfg (name ++ "_stoken") = some stoken →
      decrypt_from_config prim name file =
        match decrypt prim key stoken with
        | some secret => VaultResult.ok secret
        | none => VaultResult.decryptError) := by
  cases file with
  | absent =>
    refine ⟨by simp [decrypt_from_config], by simp [decrypt_from_config], ?_⟩
    intro cfg key stoken hf h1 h2
    cases hf
  | malformed => exact absurd rfl h
  | valid cfg =>
    rw [decrypt_from_config_valid]
    rcases hk : cfg (name ++ "_key") with _ | key0
    · refine ⟨by simp, by simp [hk], ?_⟩
      intro cfg' key stoken hf h1 h2
      injection hf with hcc
      subst hcc
      rw [hk] at h1
      cases h1
    · rcases hs : cfg (name ++ "_stoken") with _ | stoken0
      · refine ⟨by simp, by simp [hk, hs], ?_⟩
        intro cfg' key stoken hf h1 h2
        injection hf with hcc
        subst hcc
        rw [hs] at h2
        cases h2
      · refine ⟨?_, ?_, ?_⟩
        · rcases hd : decrypt prim key0 stoken0 with _ | sec <;> simp [hd]
        · rcases hd : decrypt prim key0 stoken0 with _ | sec <;> simp [hd, hk, hs]
        · intro cfg' key stoken hf h1 h2
          injection hf with hcc
          subst hcc
          rw [hk] at h1
          injection h1 with hkey
          subst hkey
          rw [hs] at h2
          injection h2 with hst
          subst hst
          rfl

/-- Witness for C5 at a concrete valid store holding one secret. -/
theorem decrypt_from_config_error_taxonomy_witness :
    FileContent.valid (storeSet (storeSet emptyStore "a_key" "K") "a_stoken" "T") ≠
      FileContent.malformed ∧
    ((decrypt_from_config primId "a"
        (.valid (storeSet (storeSet emptyStore "a_key" "K") "a_stoken" "T")) =
        VaultResult.storeNotFound ↔
      FileContent.valid (storeSet (storeSet emptyStore "a_key" "K") "a_stoken" "T") =
        FileContent.absent) ∧
     (decrypt_from_config primId "a"
        (.valid (storeSet (storeSet emptyStore "a_key" "K") "a_stoken" "T")) =
        VaultResult.missingSecret ↔
      ∃ cfg, FileContent.valid (storeSet (storeSet emptyStore "a_key" "K") "a_stoken" "T") =
          FileContent.valid cfg ∧
        (cfg ("a" ++ "_key") = none ∨ cfg ("a" ++ "_stoken") = none)) ∧
     (∀ cfg key stoken,
       FileContent.valid (storeSet (storeSet emptyStore "a_key" "K") "a_stoken" "T") =
         FileContent.valid cfg →
       cfg ("a" ++ "_key") = some key →
       cfg ("a" ++ "_stoken") = some stoken →
       decrypt_from_config primId "a"
          (.valid (storeSet (storeSet emptyStore "a_key" "K") "a_stoken" "T")) =
         match decrypt primId key stoken with
         | some secret => VaultResult.ok secret
         | none => VaultResult.decryptError)) :=
  ⟨fun hf => FileContent.noConfusion hf,
    decrypt_from_config_error_taxonomy primId "a"
      (.valid (storeSet (storeSet emptyStore "a_key" "K") "a_stoken" "T"))
      (fun hf => FileContent.noConfusion hf)⟩

/-!
## Claim theorems: employment-event reconstructor
-/

/-- C3: with the hire date determined from the first event (or the directory
fallback) being `o`, a record of two or more events yields the second event's
date exactly when the second status is not the exact string `"Terminated"`
and the second date is strictly earlier than `o`; otherwise, and for
single-event records, the result is `o` (and no error is raised). -/
theorem get_original_hire_date_second_event_rule
    (api : String → Option String) (id : String) (first second : Event)
    (rest : List Event) (o : String) (h : hireDateOf api id first = some o) :
    get_original_hire_date api ⟨id, first :: second :: rest⟩ =
      (if second.employmentStatus ≠ "Terminated" ∧ pyStrLt second.date o = true
        then Except.ok (some second.date) else Except.ok (some o)) ∧
    get_original_hire_date api ⟨id, [first]⟩ = Except.ok (some o) := by
  constructor
  · unfold get_original_hire_date get_original_hire_date_run
    by_cases hd : first.date = "0000-00-00"
    · have ha : api id = some o := by simpa [hireDateOf, hd] using h
      by_cases hst : second.employmentStatus = "Terminated"
      · simp [hd, ha, hst]
      · by_cases hlt : pyStrLt second.date o <;> simp [hd, ha, hst, hlt]
    · have ha : first.date = o := by simpa [hireDateOf, hd] using h
      subst ha
      by_cases hst : second.employmentStatus = "Terminated"
      · simp [hd, hst]
      · by_cases hlt : pyStrLt second.date first.date <;> simp [hd, hst, hlt]
  · unfold get_original_hire_date get_original_hire_date_run
    by_cases hd : first.date = "0000-00-00"
    · have ha : api id = some o := by simpa [hireDateOf, hd] using h
      simp [hd, ha]
    · have ha : first.date = o := by simpa [hireDateOf, hd] using h
      subst ha
      simp [hd]

/-- Witness for C3 on the docstring example of `get_original_hire_date`. -/
theorem get_original_hire_date_second_event_rule_witness :
    hireDateOf (fun _ => none) "1" ⟨"2016-02-08", "Original Hire Date"⟩ =
      some "2016-02-08" ∧
    (get_original_hire_date (fun _ => none)
        ⟨"1", [⟨"2016-02-08", "Original Hire Date"⟩,
          ⟨"2015-09-28", "Original Hire Date"⟩]⟩ =
      (if (⟨"2015-09-28", "Original Hire Date"⟩ : Event).employmentStatus ≠ "Terminated" ∧
          pyStrLt (⟨"2015-09-28", "Original Hire Date"⟩ : Event).date "2016-02-08" = true
        then Except.ok (some "2015-09-28") else Except.ok (some "2016-02-08")) ∧
     get_original_hire_date (fun _ => none)
        ⟨"1", [⟨"2016-02-08", "Original Hire Date"⟩]⟩ =
       Except.ok (some "2016-02-08")) :=
  ⟨by decide,
    get_original_hire_date_second_event_rule (fun _ => none) "1"
      ⟨"2016-02-08", "Original Hire Date"⟩ ⟨"2015-09-28", "Original Hire Date"⟩
      [] "2016-02-08" (by decide)⟩

/-- C4 counterexample: on a record with an empty event list, `get_date`
searching for the first termination silently returns the empty string, it
does not fail. -/
theorem get_date_empty_list_returns_default :
    get_date (fun _ => none) ⟨"1", []⟩ 1 "Terminated" = Except.ok (some "") :=
  rfl

/-- C4 amended: on an empty event list, `get_original_hire_date` (and
`get_date` for the `"Original Hire"` kind) fails fast — with `IndexError`
from the unchecked `input_data[0]` access, there is no dedicated
`InvalidRecord` condition — while `get_date` for the `"Terminated"` and
`"Hire"` kinds silently returns the empty string for every occurrence
index. -/
theorem empty_record_failure_modes (api : String → Option String)
    (id : String) (n : Nat) :
    get_original_hire_date api ⟨id, []⟩ = Except.error PyErr.indexError ∧
    get_date api ⟨id, []⟩ n "Original Hire" = Except.error PyErr.indexError ∧
    get_date api ⟨id, []⟩ n "Terminated" = Except.ok (some "") ∧
    get_date api ⟨id, []⟩ n "Hire" = Except.ok (some "") :=
  ⟨rfl, rfl, rfl, rfl⟩

/-- C7: when the first event's date is the sentinel `"0000-00-00"`, the
directory-lookup collaborator is called exactly once, with the record's
employee id, and absent a qualifying second-event override the fetched value
is returned; when the first date is not the sentinel the collaborator is
never called. -/
theorem sentinel_directory_fallback (api : String → Option String)
    (id : String) (first : Event) (rest : List Event) :
    (first.date = "0000-00-00" →
      (get_original_hire_date_run api ⟨id, first :: rest⟩).2 = [id] ∧
      (noSecondOverride api id rest →
        (get_original_hire_date_run api ⟨id, first :: rest⟩).1 =
          Except.ok (api id))) ∧
    (first.date ≠ "0000-00-00" →
      (get_original_hire_date_run api ⟨id, first :: rest⟩).2 = []) := by
  constructor
  · intro hd
    cases rest with
    | nil =>
      exact ⟨by simp [get_original_hire_date_run, hd], fun _ => by
        simp [get_original_hire_date_run, hd]⟩
    | cons second rest' =>
      constructor
      · by_cases hst : second.employmentStatus = "Terminated"
        · simp [get_original_hire_date_run, hd, hst]
        · rcases ha : api id with _ | v
          · simp [get_original_hire_date_run, hd, hst, ha]
          · by_cases hlt : pyStrLt second.date v <;>
              simp [get_original_hire_date_run, hd, hst, ha, hlt]
      · intro hno
        rcases hno with hst | ⟨v, hav, hlt⟩
        · simp [get_original_hire_date_run, hd, hst]
        · by_cases hst : second.employmentStatus = "Terminated"
          · simp [get_original_hire_date_run, hd, hst]
          · simp [get_original_hire_date_run, hd, hst, hav, hlt]
  · intro hd
    cases rest with
    | nil => simp [get_original_hire_date_run, hd]
    | cons second rest' =>
      by_cases hst : second.employmentStatus = "Terminated"
      · simp [get_original_hire_date_run, hd, hst]
      · rcases ha : api id with _ | v
        · by_cases hd2 : pyStrLt second.date first.date <;>
            simp [get_original_hire_date_run, hd, hst, ha, hd2]
        · by_cases hd2 : pyStrLt second.date first.date <;>
            simp [get_original_hire_date_run, hd, hst, ha, hd2]

/-- Witness for C7: a sentinel first event with no second event. -/
theorem sentinel_directory_fallback_witness :
    (⟨"0000-00-00", "Hired"⟩ : Event).date = "0000-00-00" ∧
    (get_original_hire_date_run (fun _ => some "1999-09-09")
      ⟨"42", [⟨"0000-00-00", "Hired"⟩]⟩).2 = ["42"] ∧
    (get_original_hire_date_run (fun _ => some "1999-09-09")
      ⟨"42", [⟨"0000-00-00", "Hired"⟩]⟩).1 = Except.ok (some "1999-09-09") := by
  refine ⟨rfl, ?_, ?_⟩
  · exact ((sentinel_directory_fallback (fun _ => some "1999-09-09") "42"
      ⟨"0000-00-00", "Hired"⟩ []).1 rfl).1
  · exact ((sentinel_directory_fallback (fun _ => some "1999-09-09") "42"
      ⟨"0000-00-00", "Hired"⟩ []).1 rfl).2 trivial

/-- C10: sentinel first date, a directory fallback that returns nothing, and
a second event whose status is not `"Terminated"` make
`get_original_hire_date` raise `TypeError` (python compares a string date
against `None`) instead of returning a date. -/
theorem sentinel_none_fallback_type_error (api : String → Option String)
    (id : String) (first second : Event) (rest : List Event)
    (hd : first.date = "0000-00-00") (ha : api id = none)
    (hst : second.employmentStatus ≠ "Terminated") :
    get_original_hire_date api ⟨id, first :: second :: rest⟩ =
      Except.error PyErr.typeError := by
  unfold get_original_hire_date get_original_hire_date_run
  simp [hd, ha, hst]

/-- Witness for C10 at a concrete record. -/
theorem sentinel_none_fallback_type_error_witness :
    (⟨"0000-00-00", "X"⟩ : Event).date = "0000-00-00" ∧
    (fun (_ : String) => (none : Option String)) "7" = none ∧
    (⟨"2020-01-01", "Active"⟩ : Event).employmentStatus ≠ "Terminated" ∧
    get_original_hire_date (fun _ => none)
      ⟨"7", [⟨"0000-00-00", "X"⟩, ⟨"2020-01-01", "Active"⟩]⟩ =
      Except.error PyErr.typeError :=
  ⟨rfl, rfl, by decide,
    sentinel_none_fallback_type_error (fun _ => none) "7"
      ⟨"0000-00-00", "X"⟩ ⟨"2020-01-01", "Active"⟩ [] rfl rfl (by decide)⟩

lemma scanTerm_aux (events : List Event) :
    ∀ n c : Nat, c < n →
      getDateScan n "Terminated" events c =
        (match (events.filter isTermEvent)[n - c - 1]? with
         | some e => e.date
         | none => "") := by
  induction events with
  | nil =>
    intro n c _
    simp [getDateScan]
  | cons e rest ih =>
    intro n c hc
    cases ht : isTermEvent e with
    | true =>
      rw [List.filter_cons_of_pos ht]
      by_cases he : c + 1 = n
      · have hidx : n - c - 1 = 0 := by omega
        rw [hidx, List.getElem?_cons_zero]
        simp [getDateScan, ht, he]
      · have hlt : c + 1 < n := by omega
        have hidx : n - c - 1 = n - (c + 1) - 1 + 1 := by omega
        rw [hidx, List.getElem?_cons_succ, ← ih n (c + 1) hlt]
        simp [getDateScan, ht, he]
    | false =>
      rw [List.filter_cons_of_neg (by simp [ht]), ← ih n c hc]
      simp [getDateScan, ht]

lemma scanHire_aux (events : List Event) :
    ∀ n c i : Nat,
      getDateScan n "Hire" events c =
        (match (List.enumFrom i events).find? (fun p =>
            !isTermEvent p.2 &&
              (c + (events.take (p.1 - i)).countP isTermEvent == n)) with
         | some p => p.2.date
         | none => "") := by
  induction events with
  | nil =>
    intro n c i
    rfl
  | cons e rest ih =>
    intro n c i
    have henum : List.enumFrom i (e :: rest) =
        (i, e) :: List.enumFrom (i + 1) rest := rfl
    rw [henum]
    cases ht : isTermEvent e with
    | true =>
      rw [List.find?_cons_of_neg _ (by simp [ht])]
      have hpq : ∀ p ∈ List.enumFrom (i + 1) rest,
          (fun p : Nat × Event => !isTermEvent p.2 &&
            (c + ((e :: rest).take (p.1 - i)).countP isTermEvent == n)) p =
          (fun p : Nat × Event => !isTermEvent p.2 &&
            (c + 1 + (rest.take (p.1 - (i + 1))).countP isTermEvent == n)) p := by
        intro p hp
        have hip : i + 1 ≤ p.1 := mem_enumFrom_le rest (i + 1) p hp
        have hidx : p.1 - i = p.1 - (i + 1) + 1 := by omega
        show (!isTermEvent p.2 &&
            (c + ((e :: rest).take (p.1 - i)).countP isTermEvent == n)) =
          (!isTermEvent p.2 &&
            (c + 1 + (rest.take (p.1 - (i + 1))).countP isTermEvent == n))
        rw [hidx, List.take_succ_cons, List.countP_cons_of_pos _ _ ht]
        have hAB : c + ((rest.take (p.1 - (i + 1))).countP isTermEvent + 1) =
            c + 1 + (rest.take (p.1 - (i + 1))).countP isTermEvent := by omega
        rw [hAB]
      rw [find?_congrOn _ _ (List.enumFrom (i + 1) rest) hpq,
        ← ih n (c + 1) (i + 1)]
      simp [getDateScan, ht]
    | false =>
      by_cases hcn : c = n
      · rw [List.find?_cons_of_pos _
          (by simp [ht, Nat.sub_self, hcn])]
        simp [getDateScan, ht, hcn]
      · rw [List.find?_cons_of_neg _
          (by simp [ht, Nat.sub_self, hcn])]
        have hpq : ∀ p ∈ List.enumFrom (i + 1) rest,
            (fun p : Nat × Event => !isTermEvent p.2 &&
              (c + ((e :: rest).take (p.1 - i)).countP isTermEvent == n)) p =
            (fun p : Nat × Event => !isTermEvent p.2 &&
              (c + (rest.take (p.1 - (i + 1))).countP isTermEvent == n)) p := by
          intro p hp
          have hip : i + 1 ≤ p.1 := mem_enumFrom_le rest (i + 1) p hp
          have hidx : p.1 - i = p.1 - (i + 1) + 1 := by omega
          show (!isTermEvent p.2 &&
              (c + ((e :: rest).take (p.1 - i)).countP isTermEvent == n)) =
            (!isTermEvent p.2 &&
              (c + (rest.take (p.1 - (i + 1))).countP isTermEvent == n))
          rw [hidx, List.take_succ_cons,
            List.countP_cons_of_neg _ _ (by simp [ht])]
        rw [find?_congrOn _ _ (List.enumFrom (i + 1) rest) hpq,
          ← ih n c (i + 1)]
        simp [getDateScan, ht, hcn]

/-- C2: for a record with a non-empty event list and an occurrence index
`n ≥ 1`, `get_date` with kind `"Terminated"` returns the date of the `n`-th
event whose status contains the fragment `"erminated"`, `get_date` with kind
`"Hire"` returns the date of the first non-termination event scanned while
the termination counter equals `n`, and in either case the absence of such
an event yields the empty string, not an error. -/
theorem get_date_occurrence_semantics (api : String → Option String)
    (id : String) (events : List Event) (n : Nat)
    (hne : events ≠ []) (hn : 1 ≤ n) :
    get_date api ⟨id, events⟩ n "Terminated" =
      Except.ok (some (nthTermDate events n)) ∧
    get_date api ⟨id, events⟩ n "Hire" =
      Except.ok (some (nthHireDate events n)) := by
  constructor
  · have hdisp : get_date api ⟨id, events⟩ n "Terminated" =
        Except.ok (some (getDateScan n "Terminated" events 0)) := rfl
    rw [hdisp, scanTerm_aux events n 0 (by omega)]
    rfl
  · have hdisp : get_date api ⟨id, events⟩ n "Hire" =
        Except.ok (some (getDateScan n "Hire" events 0)) := rfl
    rw [hdisp, scanHire_aux events n 0 0]
    have hpq : ∀ p ∈ List.enumFrom 0 events,
        (fun p : Nat × Event => !isTermEvent p.2 &&
          (0 + (events.take (p.1 - 0)).countP isTermEvent == n)) p =
        hirePred events n p := by
      intro p hp
      simp [hirePred, Nat.zero_add, Nat.sub_zero]
    rw [find?_congrOn _ _ (List.enumFrom 0 events) hpq]
    rfl

/-- Witness for C2 on the spec's termination-counting example. -/
theorem get_date_occurrence_semantics_witness :
    ([⟨"d1", "Terminated"⟩, ⟨"d2", "Active"⟩, ⟨"d3", "Re-Terminated"⟩,
      ⟨"d4", "Active"⟩] : List Event) ≠ [] ∧ 1 ≤ 2 ∧
    (get_date (fun _ => none)
        ⟨"9", [⟨"d1", "Terminated"⟩, ⟨"d2", "Active"⟩, ⟨"d3", "Re-Terminated"⟩,
          ⟨"d4", "Active"⟩]⟩ 2 "Terminated" =
      Except.ok (some (nthTermDate [⟨"d1", "Terminated"⟩, ⟨"d2", "Active"⟩,
        ⟨"d3", "Re-Terminated"⟩, ⟨"d4", "Active"⟩] 2)) ∧
     get_date (fun _ => none)
        ⟨"9", [⟨"d1", "Terminated"⟩, ⟨"d2", "Active"⟩, ⟨"d3", "Re-Terminated"⟩,
          ⟨"d4", "Active"⟩]⟩ 2 "Hire" =
      Except.ok (some (nthHireDate [⟨"d1", "Terminated"⟩, ⟨"d2", "Active"⟩,
        ⟨"d3", "Re-Terminated"⟩, ⟨"d4", "Active"⟩] 2))) :=
  ⟨List.cons_ne_nil _ _, by decide,
    get_date_occurrence_semantics (fun _ => none) "9"
      [⟨"d1", "Terminated"⟩, ⟨"d2", "Active"⟩, ⟨"d3", "Re-Terminated"⟩,
        ⟨"d4", "Active"⟩] 2 (List.cons_ne_nil _ _) (by decide)⟩
